import Mathlib

/-!
Verification of the Zintle waitlist server.

This file gives a shallow embedding, in Lean, of the relevant parts of the
repository: the waitlist signup pipeline and analytics endpoints of
`server.js`, and the email service of `assets/services/emailService.js`.
Timestamps are modelled as integer epoch milliseconds; JS numbers carried by
requests are modelled as rationals; the database is modelled as an explicit
store value threaded through the handlers, with an oracle describing which
individual inserts succeed.
-/

namespace Zintle

/-- Milliseconds per day (`24 * 60 * 60 * 1000` in the date math of server.js). -/
def msPerDay : Int := 24 * 60 * 60 * 1000

/-- A row of the `users` table (`users(id PK, email UNIQUE, createdAt,
updatedAt)` in the Prisma migration).  `updatedAt` is never read by any
endpoint and is omitted; timestamps are epoch milliseconds. -/
structure User where
  id : String
  email : String
  createdAt : Int
deriving DecidableEq, Repr

/-- A row of the `responses` table (`responses(id PK, userId FK, question,
answer, questionId, createdAt)`); the generated `id` is omitted. -/
structure Response where
  userId : String
  questionId : String
  question : String
  answer : String
  createdAt : Int
deriving DecidableEq, Repr

/-- The persistent store: the two tables the handlers read and write.  The
`analytics` table is declared in the migration but never used. -/
structure Store where
  users : List User
  responses : List Response
deriving DecidableEq, Repr

/-- A raw `POST /api/waitlist` body: each field may be absent.  A JS number
is modelled as a rational. -/
structure RawRequest where
  email : Option String
  primarySkill : Option String
  biggestChallenge : Option String
  interestLevel : Option ℚ
deriving DecidableEq, Repr

/-- The validated form of a waitlist submission. -/
structure ValidRequest where
  email : String
  primarySkill : String
  biggestChallenge : String
  interestLevel : ℚ
deriving DecidableEq, Repr

/-- Split a character list at every occurrence of `c` (so `n` separators
give `n + 1` pieces, empty pieces included). -/
def splitOnChar (c : Char) : List Char → List (List Char)
  | [] => [[]]
  | x :: xs =>
    let r := splitOnChar c xs
    if x = c then [] :: r
    else
      match r with
      | [] => [[x]]
      | h :: t => (x :: h) :: t

/-- Modelled from the spec: the address check behind `Joi.string().email()`
is library code not present in this repository; the spec calls it "a
standard address syntax".  Modelled as: exactly one `@`, a nonempty local
part, and a domain of at least two nonempty dot-separated labels. -/
def validEmail (s : String) : Bool :=
  match splitOnChar '@' s.toList with
  | [l, d] =>
    let labels := splitOnChar '.' d
    !l.isEmpty && decide (2 ≤ labels.length) && labels.all (fun p => !p.isEmpty)
  | _ => false

/-- The `waitlistSchema` validation (server.js lines 51-56, applied at line
88): all four fields are `required()`; `Joi.string()` rejects the empty
string by default; `Joi.number().min(1).max(5)` bounds the number but does
not require it to be an integer. -/
def waitlistValidate (r : RawRequest) : Option ValidRequest :=
  match r.email, r.primarySkill, r.biggestChallenge, r.interestLevel with
  | some e, some sk, some ch, some il =>
    if validEmail e && !sk.isEmpty && !ch.isEmpty
        && decide ((1 : ℚ) ≤ il) && decide (il ≤ (5 : ℚ)) then
      some ⟨e, sk, ch, il⟩
    else none
  | _, _, _, _ => none

/-- Outcomes of the database inserts attempted inside the signup
transaction: whether `tx.user.create` and each of the three
`tx.response.create` calls succeeds.  The environment, not the code,
determines these. -/
structure TxOracle where
  userOk : Bool
  respOk : Fin 3 → Bool
deriving DecidableEq

/-- The three survey `Response` rows created for user `uid` (server.js lines
115-140); `interestLevel` is stored via `.toString()`. -/
def signupResponses (uid : String) (v : ValidRequest) (now : Int) : List Response :=
  [ ⟨uid, "primary_skill", "What\x27s your primary creative skill?", v.primarySkill, now⟩,
    ⟨uid, "biggest_challenge", "What\x27s your biggest challenge as a freelancer?",
      v.biggestChallenge, now⟩,
    ⟨uid, "interest_level", "How interested are you in skill-swapping?",
      toString v.interestLevel, now⟩ ]

/-- The body of the `prisma.$transaction` callback (server.js lines
110-143): create the user row, then the three response rows (issued together
via `Promise.all`; their table order is the listed order).  A failed insert
throws, ending the callback with an error (`none`). -/
def signupTx (uid : String) (v : ValidRequest) (now : Int) (o : TxOracle)
    (s : Store) : Option Store :=
  if !o.userOk then none
  else
    let s1 : Store := { s with users := s.users ++ [⟨uid, v.email, now⟩] }
    if o.respOk 0 && o.respOk 1 && o.respOk 2 then
      some { s1 with responses := s1.responses ++ signupResponses uid v now }
    else none

/-- Semantics of `prisma.$transaction`: run the callback; on error, all of
its writes are rolled back, leaving the store as it was (`Bool` reports
whether the transaction committed). -/
def transact (s : Store) (tx : Store → Option Store) : Store × Bool :=
  match tx s with
  | some s2 => (s2, true)
  | none => (s, false)

/-- The JSON-observable outcome of `POST /api/waitlist`. -/
inductive SubmitResult where
  /-- HTTP 400, validation failed. -/
  | validationError
  /-- HTTP 409, email already registered. -/
  | conflict
  /-- HTTP 500, the transaction threw. -/
  | serverError
  /-- HTTP 201 with `userId`, `position`, `emailSent`. -/
  | created (userId : String) (position : Nat) (emailSent : Bool)
deriving DecidableEq, Repr

/-- The `POST /api/waitlist` handler (server.js lines 85-181): validate the
body, look up an existing user by email, run the signup transaction, recount
the users for the founder position, and send the welcome email best-effort
(`emailOk` is the outcome of that attempt; it never aborts the signup). -/
def submit (s : Store) (r : RawRequest) (uid : String) (now : Int)
    (o : TxOracle) (emailOk : Bool) : SubmitResult × Store :=
  match waitlistValidate r with
  | none => (.validationError, s)
  | some v =>
    if s.users.any (fun u => u.email == v.email) then (.conflict, s)
    else
      match transact s (signupTx uid v now o) with
      | (s2, true) => (.created uid s2.users.length emailOk, s2)
      | (s2, false) => (.serverError, s2)

/-- The `GET /api/stats` handler (server.js lines 70-83):
`totalSignups = prisma.user.count()` and
`spotsLeft = Math.max(500 - totalSignups, 0)`. -/
def basicStats (s : Store) : Nat × Int :=
  (s.users.length, max (500 - (s.users.length : Int)) 0)

/-- Milliseconds per hour. -/
def msPerHour : Int := 60 * 60 * 1000

/-- The UTC calendar day of an epoch-millisecond instant, as selected by
`date.toISOString().split("T")[0]` (two instants get the same ISO date
exactly when they have the same floor-day; `/` on `Int` is floor division
for this positive divisor). -/
def epochDay (t : Int) : Int := t / msPerDay

/-- The local hour of day of an epoch-millisecond instant
(`createdAt.getHours()`), with the UTC offset `tz` of the server in
milliseconds. -/
def localHour (tz t : Int) : Int := ((t + tz) / msPerHour) % 24

/-- Increment the histogram entry whose key is `k`, leaving entries with
other keys alone; a missing key changes nothing (the
`dailyData.hasOwnProperty(dateStr)` guard, resp. indexing a pre-sized
array). -/
def bumpKey (m : List (Int × Nat)) (k : Int) : List (Int × Nat) :=
  m.map (fun p => if p.1 = k then (p.1, p.2 + 1) else p)

/-- The zero-filled 30-day structure built by
`for (let i = 29; i >= 0; i--) dailyData[iso(today - i*24h)] = 0`
(server.js lines 300-305), in insertion order (`i = 29` first). -/
def dailyInit (today : Int) : List (Int × Nat) :=
  (List.range 30).map
    (fun (j : ℕ) => (epochDay (today - (29 - (j : Int)) * msPerDay), 0))

/-- The daily signup histogram of server.js lines 286-313: users created in
the last 30 days (`createdAt >= today - 30*24h`) are bucketed by UTC date
into `dailyInit`.  The subsequent `.sort` by date (line 321) is the
identity here because the keys are already chronological (proved below). -/
def dailyData (users : List User) (today : Int) : List (Int × Nat) :=
  (users.filter (fun u => decide (today - 30 * msPerDay ≤ u.createdAt))).foldl
    (fun m u => bumpKey m (epochDay u.createdAt)) (dailyInit today)

/-- The 24-bucket hourly histogram (`Array(24).fill(0)` then
`hourlyData[user.createdAt.getHours()]++`, server.js lines 349-353), over
all users, keyed by the bucket index. -/
def hourlyData (tz : Int) (users : List User) : List (Int × Nat) :=
  users.foldl (fun m u => bumpKey m (localHour tz u.createdAt))
    ((List.range 24).map (fun (h : ℕ) => ((h : Int), 0)))

/-- The `peakSignupHour` insight (server.js line 370):
`hourlyData.indexOf(Math.max(...hourlyData))`.  On this nonempty array of
nonnegative counts, `Math.max(...)` is the fold of `max` from `0`. -/
def peakSignupHour (tz : Int) (users : List User) : Nat :=
  let counts := (hourlyData tz users).map Prod.snd
  counts.indexOf (counts.foldr max 0)

/-- Count of users with `createdAt >= now - 7*24h` (`usersThisWeek`,
server.js lines 278-280). -/
def usersThisWeek (users : List User) (now : Int) : Nat :=
  (users.filter (fun u => decide (now - 7 * msPerDay ≤ u.createdAt))).length

/-- Two decimal digits for the fractional part of a fixed-point rendering:
`n` is left-padded with `0` to two characters (`0 ≤ n < 100`). -/
def pad2 (n : Int) : String :=
  if n < 10 then "0" ++ toString n else toString n

/-- JS `Number.prototype.toFixed(2)` on an exact nonnegative value: the
integer nearest to `100 * x` (ties toward the larger), rendered over a
decimal point with exactly two fractional digits. -/
def toFixed2 (x : ℚ) : String :=
  let n : Int := ⌊x * 100 + 1 / 2⌋
  toString (n / 100) ++ "." ++ pad2 (n % 100)

/-- The `weeklyGrowthRate` computation (server.js lines 356-359): the
sentinel string when no user is older than a week, otherwise
`((usersThisWeek / lastWeekTotalUsers) * 100).toFixed(2)`. -/
def weeklyGrowthRateRaw (users : List User) (now : Int) : String :=
  let lastWeekTotalUsers : Int := (users.length : Int) - (usersThisWeek users now : Int)
  if 0 < lastWeekTotalUsers then
    toFixed2 (((usersThisWeek users now : ℚ) / (lastWeekTotalUsers : ℚ)) * 100)
  else "∞"

/-- The reported `weeklyGrowthRate` field (server.js line 388):
`weeklyGrowthRate === "∞" ? "New" : weeklyGrowthRate + "%"`. -/
def weeklyGrowthRate (users : List User) (now : Int) : String :=
  let raw := weeklyGrowthRateRaw users now
  if raw = "∞" then "New" else raw ++ "%"

/-- Written from the wording of the spec, for comparison only: "All percentage
values are formatted to one decimal place as strings", i.e. the same value
rendered with `toFixed(1)`. -/
def specToFixed1 (x : ℚ) : String :=
  let n : Int := ⌊x * 10 + 1 / 2⌋
  toString (n / 10) ++ "." ++ toString (n % 10)

/-- Written from the wording of the spec, for comparison only: the growth rate
the spec describes, one decimal place, `"New"` on a zero denominator. -/
def specWeeklyGrowthRate (users : List User) (now : Int) : String :=
  let lastWeekTotalUsers : Int := (users.length : Int) - (usersThisWeek users now : Int)
  if 0 < lastWeekTotalUsers then
    specToFixed1 (((usersThisWeek users now : ℚ) / (lastWeekTotalUsers : ℚ)) * 100) ++ "%"
  else "New"

/-- The `EmailService` configuration state set up by its constructor
(emailService.js lines 4-17): `isConfigured = !!process.env.RESEND_API_KEY`,
`isDevelopment = (NODE_ENV === "development")`, and the sender identity. -/
structure EmailSvc where
  isConfigured : Bool
  isDevelopment : Bool
  fromEmail : String
  fromName : String
deriving DecidableEq, Repr

/-- One `resend.emails.send` call, i.e. one use of the external mail
transport: the `from` identity, recipient list and subject.  The rendered
`html`/`text` payloads are pure template strings and are elided. -/
structure SendReq where
  fromAddr : String
  recipients : List String
  subject : String
deriving DecidableEq, Repr

/-- The outcome the transport reports for one send:
`{ data } or { error }`. -/
inductive SendOutcome where
  | ok
  | err (message : String)
deriving DecidableEq, Repr

/-- Boolean success of one transport outcome. -/
def sendOk : SendOutcome → Bool
  | .ok => true
  | .err _ => false

/-- The substring test `error.message?.includes("domain is not verified")`. -/
def strIncludes (s pat : String) : Bool :=
  decide (pat.toList <:+: s.toList)

/-- The observable result object of `sendWelcomeEmail`: its `success`
field (the accompanying `message`/`data`/`error` payloads are not read by
the control flow of any caller beyond logging). -/
structure EmailResult where
  success : Bool
deriving DecidableEq, Repr

/-- The `sendWelcomeEmail` method (emailService.js lines 19-81), returning
the JSON-observable result together with the ordered list of transport
invocations it made.  Unconfigured ("demo mode"): log only, no transport
call, success.  Configured: send; on a `domain is not verified` error,
retry once from `onboarding@resend.dev`; any other error fails. -/
def sendWelcomeEmail (svc : EmailSvc) (userEmail : String)
    (transport : SendReq → SendOutcome) : EmailResult × List SendReq :=
  if !svc.isConfigured then ({ success := true }, [])
  else
    let req : SendReq :=
      { fromAddr := if svc.isDevelopment then "onboarding@resend.dev"
          else svc.fromName ++ " <" ++ svc.fromEmail ++ ">",
        recipients := [userEmail],
        subject := "🚀 Welcome to Zintle\x27s Private Beta!" }
    match transport req with
    | .ok => ({ success := true }, [req])
    | .err m =>
      if strIncludes m "domain is not verified" then
        let retry : SendReq := { req with fromAddr := "onboarding@resend.dev" }
        match transport retry with
        | .ok => ({ success := true }, [req, retry])
        | .err _ => ({ success := false }, [req, retry])
      else ({ success := false }, [req])

/-- The send request of one broadcast batch (emailService.js lines
544-550): fixed sender identity and subject, `to` set to the batch. -/
def updateReq (svc : EmailSvc) (subject : String) (batch : List String) : SendReq :=
  { fromAddr := svc.fromName ++ " <" ++ svc.fromEmail ++ ">",
    recipients := batch,
    subject := subject }

/-- The batches cut by the loop `for (let i = 0; i < emails.length; i +=
50) emails.slice(i, i + 50)`.  `fuel` bounds the recursion; the number of
recipients suffices. -/
def batches : Nat → List String → List (List String)
  | _, [] => []
  | 0, _ => []
  | fuel + 1, rem => rem.take 50 :: batches fuel (rem.drop 50)

/-- The batch loop of `sendProgressUpdate` (emailService.js lines 537-568)
on the remaining recipients: send `rem.slice(0, 50)` as one transport call,
record one per-recipient result for the whole batch, count one pacing delay
when another batch follows (`i + batchSize < emails.length`), continue with
the rest.  A failed batch is recorded and the loop continues.  Returns the
`results` list and the number of delays taken. -/
def sendBatchesAux (transport : SendReq → SendOutcome)
    (mkReq : List String → SendReq) :
    Nat → List String → List (String × Bool) × Nat
  | _, [] => ([], 0)
  | 0, _ => ([], 0)
  | fuel + 1, rem =>
    let batch := rem.take 50
    let ok := sendOk (transport (mkReq batch))
    let rest := sendBatchesAux transport mkReq fuel (rem.drop 50)
    (batch.map (fun e => (e, ok)) ++ rest.1,
      (if 50 < rem.length then 1 else 0) + rest.2)

/-- The JSON-observable result of `sendProgressUpdate`: in demo mode the
code returns only `{ success, sent }`, so `total` is optional and
`results` empty. -/
structure UpdateResult where
  success : Bool
  sent : Nat
  total : Option Nat
  results : List (String × Bool)
  delays : Nat
deriving DecidableEq, Repr

/-- The `sendProgressUpdate` method (emailService.js lines 531-572), the
operation the spec calls `sendBroadcast`.  The `content` argument only feeds the elided
`html`/`text` payloads and is not modelled.  Unconfigured: log-only
success with `sent = emails.length`.  Configured: run the batch loop, then
`sent` counts the successful per-recipient results and `success` is
unconditionally `true`. -/
def sendProgressUpdate (svc : EmailSvc) (emails : List String)
    (subject : String) (transport : SendReq → SendOutcome) : UpdateResult :=
  if !svc.isConfigured then
    { success := true, sent := emails.length, total := none,
      results := [], delays := 0 }
  else
    let r := sendBatchesAux transport (updateReq svc subject) emails.length emails
    { success := true,
      sent := (r.1.filter (fun p => p.2)).length,
      total := some emails.length,
      results := r.1,
      delays := r.2 }

/-- A concrete waitlist submission (the concrete scenario of the spec). -/
def demoReq : RawRequest :=
  ⟨some "a@x.com", some "design", some "finding_clients", some 5⟩

/-- The validated form of `demoReq`. -/
def demoValid : ValidRequest := ⟨"a@x.com", "design", "finding_clients", 5⟩

/-- An oracle under which every insert succeeds. -/
def okOracle : TxOracle := ⟨true, fun _ => true⟩

/-- An oracle under which the second response insert fails. -/
def failOracle : TxOracle := ⟨true, fun i => !(i == 1)⟩

/-- An unconfigured email service (demo mode), carrying the default
sender identity of the constructor. -/
def demoSvc : EmailSvc := ⟨false, false, "onboarding@resend.dev", "Zintle Team"⟩

/-- A configured email service. -/
def liveSvc : EmailSvc := ⟨true, false, "hello@zintle.co", "Zintle Team"⟩

/-- A transport that accepts every send. -/
def okTransport : SendReq → SendOutcome := fun _ => .ok

/-- A transport that rejects every send with a generic error. -/
def errTransport : SendReq → SendOutcome := fun _ => .err "rate limited"

/-- Three users created within the same UTC day (day number 20000). -/
def threeToday : List User :=
  [⟨"u1", "a@x.com", 20000 * msPerDay + 5 * msPerHour⟩,
   ⟨"u2", "b@x.com", 20000 * msPerDay + 6 * msPerHour⟩,
   ⟨"u3", "c@x.com", 20000 * msPerDay + 7 * msPerHour⟩]

/-- An instant later in that same UTC day. -/
def todayTs : Int := 20000 * msPerDay + 12 * msPerHour

/-- Three users of which exactly one signed up within the last week. -/
def growthUsers : List User :=
  [⟨"u1", "a@x.com", todayTs - 10 * msPerDay⟩,
   ⟨"u2", "b@x.com", todayTs - 9 * msPerDay⟩,
   ⟨"u3", "c@x.com", todayTs - 1 * msPerDay⟩]

/-- A list of 120 broadcast recipients. -/
def recipients120 : List String := List.replicate 120 "founder@zintle.co"

end Zintle

namespace Zintle

/-! Helper lemmas. -/

/-- Folding `bumpKey` over a list turns every histogram entry `(k, v)` into
`(k, v + countP (key = k))`: entries evolve independently and each user
increments exactly the entries carrying its key. -/
theorem foldl_bumpKey (f : User → Int) :
    ∀ (l : List User) (m : List (Int × Nat)),
      l.foldl (fun acc u => bumpKey acc (f u)) m
        = m.map (fun p => (p.1, p.2 + l.countP (fun u => f u == p.1))) := by
  intro l
  induction l with
  | nil => intro m; simp
  | cons a l ih =>
    intro m
    rw [List.foldl_cons, ih, bumpKey, List.map_map]
    refine List.map_congr_left (fun p _ => ?_)
    by_cases h : p.1 = f a
    · have hb : (f a == p.1) = true := by simp [h.symm]
      simp only [Function.comp_apply, if_pos h, List.countP_cons, hb, if_true]
      exact Prod.ext rfl (by omega)
    · have hb : (f a == p.1) = false := by
        simp only [beq_eq_false_iff_ne, ne_eq]
        exact fun hh => h hh.symm
      simp only [Function.comp_apply, if_neg h, List.countP_cons, hb, if_false]
      exact Prod.ext rfl (by simp)

/-- When validation passes but the email is already registered, `submit`
returns the conflict and the unchanged store. -/
theorem submit_conflict (s : Store) (r : RawRequest) (v : ValidRequest)
    (uid : String) (now : Int) (o : TxOracle) (e : Bool)
    (hv : waitlistValidate r = some v)
    (hdup : s.users.any (fun u => u.email == v.email) = true) :
    submit s r uid now o e = (.conflict, s) := by
  simp only [submit, hv]
  rw [if_pos hdup]

/-- After the validation and duplicate checks pass, `submit` is the
transaction followed by the position count. -/
theorem submit_eq_transact (s : Store) (r : RawRequest) (v : ValidRequest)
    (uid : String) (now : Int) (o : TxOracle) (eOk : Bool)
    (hv : waitlistValidate r = some v)
    (hdup : s.users.any (fun u => u.email == v.email) = false) :
    submit s r uid now o eOk
      = match transact s (signupTx uid v now o) with
        | (s2, true) => (.created uid s2.users.length eOk, s2)
        | (s2, false) => (.serverError, s2) := by
  simp [submit, hv, hdup]

/-- When validation passes, the email is fresh and every insert succeeds,
`submit` commits the new user with its three responses and reports the new
user count as the position. -/
theorem submit_success (s : Store) (r : RawRequest) (v : ValidRequest)
    (uid : String) (now : Int) (o : TxOracle) (eOk : Bool)
    (hv : waitlistValidate r = some v)
    (hdup : s.users.any (fun u => u.email == v.email) = false)
    (hu : o.userOk = true) (hr : ∀ i : Fin 3, o.respOk i = true) :
    submit s r uid now o eOk
      = (.created uid (s.users.length + 1) eOk,
         ⟨s.users ++ [⟨uid, v.email, now⟩],
          s.responses ++ signupResponses uid v now⟩) := by
  rw [submit_eq_transact s r v uid now o eOk hv hdup]
  simp [transact, signupTx, hu, hr 0, hr 1, hr 2]

/-- C1: for every submission that passes validation and the
duplicate-email check, the signup pipeline persists one `User` row and
exactly three `Response` rows — `primary_skill`, `biggest_challenge`,
`interest_level` (this last answer stored via `.toString()`) — as a single
all-or-nothing unit: when every insert succeeds the store is extended by
exactly that group; if any response insert fails the user insert is rolled
back and the store is unchanged; in all cases the store is either unchanged
or holds the full group, never a user without its responses. -/
theorem signup_transaction_atomic (s : Store) (r : RawRequest) (v : ValidRequest)
    (uid : String) (now : Int) (o : TxOracle) (eOk : Bool)
    (hv : waitlistValidate r = some v)
    (hdup : s.users.any (fun u => u.email == v.email) = false) :
    ((o.userOk = true ∧ ∀ i : Fin 3, o.respOk i = true) →
      (submit s r uid now o eOk).2.users = s.users ++ [⟨uid, v.email, now⟩] ∧
      (submit s r uid now o eOk).2.responses
        = s.responses ++ signupResponses uid v now) ∧
    ((∃ i : Fin 3, o.respOk i = false) →
      (submit s r uid now o eOk).2 = s ∧
      (submit s r uid now o eOk).1 = .serverError) ∧
    ((submit s r uid now o eOk).2 = s ∨
      ((submit s r uid now o eOk).2.users = s.users ++ [⟨uid, v.email, now⟩] ∧
       (submit s r uid now o eOk).2.responses
         = s.responses ++ signupResponses uid v now)) ∧
    (signupResponses uid v now).map Response.questionId
      = ["primary_skill", "biggest_challenge", "interest_level"] ∧
    (signupResponses uid v now).map Response.answer
      = [v.primarySkill, v.biggestChallenge, toString v.interestLevel] := by
  rw [submit_eq_transact s r v uid now o eOk hv hdup]
  refine ⟨?_, ?_, ?_, rfl, rfl⟩
  · rintro ⟨hu, hr⟩
    simp [transact, signupTx, hu, hr 0, hr 1, hr 2]
  · rintro ⟨i, hi⟩
    cases hu : o.userOk with
    | false => simp [transact, signupTx, hu]
    | true =>
      have : (o.respOk 0 && o.respOk 1 && o.respOk 2) = false := by
        fin_cases i <;> simp_all
      simp [transact, signupTx, hu, this]
  · cases hu : o.userOk with
    | false => simp [transact, signupTx, hu]
    | true =>
      cases hresp : (o.respOk 0 && o.respOk 1 && o.respOk 2) with
      | false => simp [transact, signupTx, hu, hresp]
      | true => simp [transact, signupTx, hu, hresp]

/-- Witness for C1 at a concrete input: the empty store, the concrete
submission, the all-success oracle. -/
theorem signup_transaction_atomic_witness :
    (okOracle.userOk = true ∧ ∀ i : Fin 3, okOracle.respOk i = true) ∧
    (submit ⟨[], []⟩ demoReq "u1" 0 okOracle true).2.users
      = (⟨[], []⟩ : Store).users ++ [⟨"u1", demoValid.email, 0⟩] ∧
    (submit ⟨[], []⟩ demoReq "u1" 0 okOracle true).2.responses
      = (⟨[], []⟩ : Store).responses ++ signupResponses "u1" demoValid 0 :=
  ⟨⟨rfl, fun _ => rfl⟩,
    (signup_transaction_atomic ⟨[], []⟩ demoReq demoValid "u1" 0 okOracle true
      (by decide) (by decide)).1 ⟨rfl, fun _ => rfl⟩⟩

/-- C2: when the submitted email is already present, `submit` returns the
409 conflict and performs no mutation; and a fresh email submitted twice
(the transaction of the first call succeeding) conflicts on the second call,
leaves the store exactly as the first call left it — the existing row is
neither updated nor merged — and the user count across the two calls rises
by exactly 1, not 2. -/
theorem duplicate_email_conflict (s : Store) (r : RawRequest) (v : ValidRequest)
    (uid1 uid2 : String) (now1 now2 : Int) (o1 o2 : TxOracle) (e1 e2 : Bool)
    (hv : waitlistValidate r = some v) :
    (s.users.any (fun u => u.email == v.email) = true →
      submit s r uid2 now2 o2 e2 = (.conflict, s)) ∧
    (s.users.any (fun u => u.email == v.email) = false →
      o1.userOk = true → (∀ i : Fin 3, o1.respOk i = true) →
      (submit (submit s r uid1 now1 o1 e1).2 r uid2 now2 o2 e2).1 = .conflict ∧
      (submit (submit s r uid1 now1 o1 e1).2 r uid2 now2 o2 e2).2
        = (submit s r uid1 now1 o1 e1).2 ∧
      (submit s r uid1 now1 o1 e1).2.users.length = s.users.length + 1) := by
  constructor
  · intro hdup
    exact submit_conflict s r v uid2 now2 o2 e2 hv hdup
  · intro hfresh hu hr
    have h1 : (submit s r uid1 now1 o1 e1).2.users
        = s.users ++ [⟨uid1, v.email, now1⟩] := by
      rw [submit_success s r v uid1 now1 o1 e1 hv hfresh hu hr]
    have hany : (submit s r uid1 now1 o1 e1).2.users.any
        (fun u => u.email == v.email) = true := by
      rw [h1]; simp [List.any_append]
    have hc := submit_conflict (submit s r uid1 now1 o1 e1).2 r v uid2 now2
      o2 e2 hv hany
    refine ⟨by rw [hc], by rw [hc], ?_⟩
    rw [h1]; simp

/-- Witness for C2 at a concrete input: the empty store and the concrete
submission sent twice. -/
theorem duplicate_email_conflict_witness :
    (⟨[], []⟩ : Store).users.any (fun u => u.email == demoValid.email) = false ∧
    (submit (submit ⟨[], []⟩ demoReq "u1" 0 okOracle true).2
        demoReq "u2" 1 okOracle true).1 = .conflict ∧
    (submit (submit ⟨[], []⟩ demoReq "u1" 0 okOracle true).2
        demoReq "u2" 1 okOracle true).2
      = (submit ⟨[], []⟩ demoReq "u1" 0 okOracle true).2 ∧
    (submit ⟨[], []⟩ demoReq "u1" 0 okOracle true).2.users.length
      = (⟨[], []⟩ : Store).users.length + 1 :=
  ⟨rfl, (duplicate_email_conflict ⟨[], []⟩ demoReq demoValid "u1" "u2" 0 1
    okOracle okOracle true true (by decide)).2 rfl rfl (fun _ => rfl)⟩

/-- C3 as stated is false on the code: `Joi.number().min(1).max(5)` carries
no `.integer()`, so validation accepts `interestLevel = 3/2`, a number in
`[1,5]` that is not an integer. -/
theorem validation_accepts_noninteger :
    (waitlistValidate ⟨some "a@x.com", some "design", some "finding_clients",
        some (mkRat 3 2)⟩).isSome = true
    ∧ ¬ ∃ n : ℤ, (mkRat 3 2 : ℚ) = (n : ℚ) := by
  refine ⟨by decide, ?_⟩
  rintro ⟨n, hn⟩
  have h2 : (mkRat 3 2 : ℚ).den = 2 := by decide
  rw [hn, Rat.den_intCast] at h2
  exact absurd h2 (by decide)

/-- C3 amended: validation accepts a request exactly when all four fields
are present, the email passes the address check, `primarySkill` and
`biggestChallenge` are nonempty, and `interestLevel` is a number in
`[1,5]` — not necessarily an integer; any number outside `[1,5]`, in
particular 0 or 6, fails validation. -/
theorem validation_characterization (r : RawRequest) :
    ((waitlistValidate r).isSome = true ↔
      ∃ e sk ch il, r = ⟨some e, some sk, some ch, some il⟩ ∧
        validEmail e = true ∧ sk ≠ "" ∧ ch ≠ "" ∧ (1 : ℚ) ≤ il ∧ il ≤ 5) ∧
    (∀ e sk ch il, il < (1 : ℚ) ∨ (5 : ℚ) < il →
      waitlistValidate ⟨some e, some sk, some ch, some il⟩ = none) := by
  constructor
  · obtain ⟨eo, so, co, io⟩ := r
    cases eo <;> cases so <;> cases co <;> cases io <;>
      simp [waitlistValidate, String.isEmpty_iff, Bool.eq_false_iff,
        apply_ite, and_assoc]
  · intro e sk ch il h
    simp only [waitlistValidate]
    rw [if_neg]
    intro hC
    simp only [Bool.and_eq_true, decide_eq_true_eq] at hC
    rcases h with h | h
    · exact absurd hC.1.2 (not_le.mpr h)
    · exact absurd hC.2 (not_le.mpr h)

/-- Witness for the amended C3 at concrete inputs: the concrete valid
submission is accepted and the same request with `interestLevel = 6` is
rejected. -/
theorem validation_characterization_witness :
    (waitlistValidate demoReq).isSome = true ∧
    waitlistValidate
      ⟨some "a@x.com", some "design", some "finding_clients", some 6⟩ = none :=
  ⟨(validation_characterization demoReq).1.mpr
      ⟨"a@x.com", "design", "finding_clients", 5, rfl, by decide, by decide,
        by decide, by decide, by decide⟩,
    (validation_characterization demoReq).2 "a@x.com" "design"
      "finding_clients" 6 (Or.inr (by decide))⟩

/-- C4: a valid fresh-email submission returns `position` equal to the
total user count after the insert — the 1-based ordinal signup number, one
more than before — and `GET /api/stats` immediately afterwards reports that
count with `spotsLeft = max(500 - totalSignups, 0)`; the first-ever signup
gets position 1 and stats `(1, 499)`. -/
theorem position_and_stats :
    (∀ (s : Store) (r : RawRequest) (v : ValidRequest) (uid : String)
        (now : Int) (o : TxOracle) (eOk : Bool),
      waitlistValidate r = some v →
      s.users.any (fun u => u.email == v.email) = false →
      o.userOk = true → (∀ i : Fin 3, o.respOk i = true) →
      (submit s r uid now o eOk).1
          = .created uid ((submit s r uid now o eOk).2.users.length) eOk ∧
      (submit s r uid now o eOk).2.users.length = s.users.length + 1 ∧
      basicStats (submit s r uid now o eOk).2
        = (s.users.length + 1, max (500 - ((s.users.length : Int) + 1)) 0)) ∧
    (submit ⟨[], []⟩ demoReq "u1" 0 okOracle true).1 = .created "u1" 1 true ∧
    basicStats (submit ⟨[], []⟩ demoReq "u1" 0 okOracle true).2 = (1, 499) := by
  refine ⟨?_, by decide, by decide⟩
  intro s r v uid now o eOk hv hfresh hu hr
  rw [submit_success s r v uid now o eOk hv hfresh hu hr]
  refine ⟨by simp, by simp, ?_⟩
  simp [basicStats]

/-- Witness for C4 at a concrete input: the first-ever signup on the empty
store. -/
theorem position_and_stats_witness :
    waitlistValidate demoReq = some demoValid ∧
    (submit ⟨[], []⟩ demoReq "u1" 0 okOracle true).1
      = .created "u1" ((submit ⟨[], []⟩ demoReq "u1" 0 okOracle true).2.users.length) true ∧
    (submit ⟨[], []⟩ demoReq "u1" 0 okOracle true).2.users.length
      = (⟨[], []⟩ : Store).users.length + 1 ∧
    basicStats (submit ⟨[], []⟩ demoReq "u1" 0 okOracle true).2
      = ((⟨[], []⟩ : Store).users.length + 1,
         max (500 - (((⟨[], []⟩ : Store).users.length : Int) + 1)) 0) :=
  ⟨by decide, position_and_stats.1 ⟨[], []⟩ demoReq demoValid "u1" 0 okOracle
    true (by decide) rfl rfl (fun _ => rfl)⟩

/-- A `toFixed(2)` rendering contains a decimal point, so it is never the
sentinel `"∞"`. -/
theorem toFixed2_ne_infty (x : ℚ) : toFixed2 x ≠ "∞" := by
  intro h
  have hd := congrArg String.data h
  rw [toFixed2, String.data_append, String.data_append,
    show ".".data = [Char.ofNat 46] from by decide,
    show "∞".data = [Char.ofNat 8734] from by decide] at hd
  rcases ha : (toString (⌊x * 100 + 1 / 2⌋ / 100)).data with _ | ⟨c, cs⟩
  · rw [ha, List.nil_append] at hd
    injection hd with h1 h2
    exact absurd h1 (by decide)
  · rw [ha, List.cons_append, List.cons_append] at hd
    injection hd with h1 h2
    simp at h2

/-- C5 amended: `weeklyGrowthRate` is `(usersThisWeek / (totalUsers -
usersThisWeek)) * 100` rendered by `toFixed(2)` — two decimal places, not
one — with a `%` suffix, and the sentinel `"New"` exactly when the
denominator is zero (equivalently, when every user signed up within the
week); the week count never exceeds the total, so the rendered ratio is
well-defined and the total function never raises a division error. -/
theorem weekly_growth_rate_format (users : List User) (now : Int) :
    usersThisWeek users now ≤ users.length ∧
    (usersThisWeek users now = users.length →
      weeklyGrowthRate users now = "New") ∧
    (usersThisWeek users now < users.length →
      weeklyGrowthRate users now
        = toFixed2 (((usersThisWeek users now : ℚ)
            / ((users.length : ℚ) - (usersThisWeek users now : ℚ))) * 100)
          ++ "%") := by
  refine ⟨List.length_filter_le _ _, ?_, ?_⟩
  · intro h
    have hz : ¬ ((0:ℤ) < (users.length : Int) - (usersThisWeek users now : Int)) := by
      omega
    simp [weeklyGrowthRate, weeklyGrowthRateRaw, hz]
  · intro h
    have hpos : (0:ℤ) < (users.length : Int) - (usersThisWeek users now : Int) := by
      omega
    have hraw : weeklyGrowthRateRaw users now
        = toFixed2 (((usersThisWeek users now : ℚ)
            / ((users.length : ℚ) - (usersThisWeek users now : ℚ))) * 100) := by
      simp only [weeklyGrowthRateRaw]
      rw [if_pos hpos]
      congr 2
      push_cast
      ring
    simp only [weeklyGrowthRate, hraw]
    rw [if_neg (toFixed2_ne_infty _)]

/-- Witness for the amended C5 at a concrete input: with all three users
created within the last week the denominator is zero and the endpoint
reports `"New"`. -/
theorem weekly_growth_rate_format_witness :
    usersThisWeek threeToday todayTs = threeToday.length ∧
    weeklyGrowthRate threeToday todayTs = "New" :=
  ⟨by decide, (weekly_growth_rate_format threeToday todayTs).2.1 (by decide)⟩

/-- C5 as stated is false on the code: server.js renders the growth rate
with `.toFixed(2)` and a `%` suffix, so a store of three users with one
signup this week reports `"50.00%"` — two decimal places — where the
one-decimal formatting the spec describes gives `"50.0%"` for the same value. -/
theorem weekly_growth_rate_not_one_decimal :
    weeklyGrowthRate growthUsers todayTs = "50.00%" ∧
    specWeeklyGrowthRate growthUsers todayTs = "50.0%" ∧
    ("50.00%" : String) ≠ "50.0%" := by
  have h1 : usersThisWeek growthUsers todayTs = 1 := by decide
  have h2 : growthUsers.length = 3 := by decide
  have hr : ((1:ℕ):ℚ) / ((((3:ℕ):ℤ) - ((1:ℕ):ℤ) : ℤ):ℚ) * 100 = 50 := by
    push_cast
    norm_num
  have hfloor2 : ⌊(50 : ℚ) * 100 + 1 / 2⌋ = 5000 :=
    Int.floor_eq_iff.mpr ⟨by norm_num, by norm_num⟩
  have hfloor1 : ⌊(50 : ℚ) * 10 + 1 / 2⌋ = 500 :=
    Int.floor_eq_iff.mpr ⟨by norm_num, by norm_num⟩
  have h50 : toFixed2 50 = "50.00" := by
    simp only [toFixed2]
    rw [hfloor2]
    decide
  have h50s : specToFixed1 50 = "50.0" := by
    simp only [specToFixed1]
    rw [hfloor1]
    decide
  refine ⟨?_, ?_, by decide⟩
  · have hraw : weeklyGrowthRateRaw growthUsers todayTs = toFixed2 50 := by
      simp only [weeklyGrowthRateRaw, h1, h2]
      rw [if_pos (by decide : (0:ℤ) < ((3:ℕ):ℤ) - ((1:ℕ):ℤ)), hr]
    simp only [weeklyGrowthRate, hraw, h50]
    rw [if_neg (by decide : ("50.00" : String) ≠ "∞")]
    decide
  · simp only [specWeeklyGrowthRate, h1, h2]
    rw [if_pos (by decide : (0:ℤ) < ((3:ℕ):ℤ) - ((1:ℕ):ℤ)), hr, h50s]
    decide

/-- Subtracting whole days shifts the UTC calendar day by as much. -/
theorem epochDay_sub_days (t k : Int) :
    epochDay (t - k * msPerDay) = epochDay t - k := by
  have h : t - k * msPerDay = t + (-k) * msPerDay := by ring
  rw [epochDay, epochDay, h,
    Int.add_mul_ediv_right t (-k) (by decide : msPerDay ≠ 0)]
  ring

/-- The entries of the daily histogram carry the per-day counts of the
filtered window users. -/
theorem dailyData_eq (users : List User) (today : Int) :
    dailyData users today
      = (dailyInit today).map (fun p =>
          (p.1, (users.filter
              (fun u => decide (today - 30 * msPerDay ≤ u.createdAt))).countP
            (fun u => epochDay u.createdAt == p.1))) := by
  rw [dailyData, foldl_bumpKey]
  refine List.map_congr_left (fun p hp => ?_)
  have hz : p.2 = 0 := by
    rcases List.mem_map.mp hp with ⟨j, hj, hpe⟩
    rw [← hpe]
  rw [hz]
  simp

/-- C6: the daily signup histogram has exactly 30 buckets, keyed by the UTC
calendar days `today - 29, ..., today` in chronological order; each bucket
holds the count of window users created on that day, hence zero for a day
with no signups; and after three signups within the same UTC day the store
has `totalUsers = 3` and the bucket for "today" equals 3. -/
theorem daily_histogram (users : List User) (today : Int) :
    (dailyData users today).length = 30 ∧
    (dailyData users today).map Prod.fst
      = (List.range 30).map (fun (j : ℕ) => epochDay today - 29 + (j : Int)) ∧
    (∀ p ∈ dailyData users today,
      p.2 = (users.filter
          (fun u => decide (today - 30 * msPerDay ≤ u.createdAt))).countP
        (fun u => epochDay u.createdAt == p.1)) ∧
    (∀ p ∈ dailyData users today,
      (∀ u ∈ users, epochDay u.createdAt ≠ p.1) → p.2 = 0) ∧
    threeToday.length = 3 ∧
    (dailyData threeToday todayTs).lookup (epochDay todayTs) = some 3 := by
  refine ⟨?_, ?_, ?_, ?_, by decide, by decide⟩
  · rw [dailyData_eq, List.length_map]
    rw [dailyInit, List.length_map, List.length_range]
  · rw [dailyData_eq, List.map_map]
    simp only [dailyInit, List.map_map]
    refine List.map_congr_left (fun j hj => ?_)
    simp only [Function.comp_apply]
    rw [epochDay_sub_days]
    ring
  · rw [dailyData_eq]
    intro p hp
    rcases List.mem_map.mp hp with ⟨q, hq, hpe⟩
    rw [← hpe]
  · rw [dailyData_eq]
    intro p hp hnone
    rcases List.mem_map.mp hp with ⟨q, hq, hpe⟩
    rw [← hpe]
    simp only []
    refine List.countP_eq_zero.mpr (fun u hu => ?_)
    have hmem : u ∈ users := List.mem_of_mem_filter hu
    simp only [beq_iff_eq]
    intro heq
    have hp1 : (⟨q.1, _⟩ : Int × ℕ).1 = q.1 := rfl
    exact hnone u hmem (by rw [← hpe] at *; exact heq)

/-- Witness for C6 at a concrete input: the bucket for "today" of the
three-signup store is a histogram entry whose count is the filtered count
for that day, namely 3. -/
theorem daily_histogram_witness :
    (epochDay todayTs, 3) ∈ dailyData threeToday todayTs ∧
    (3 : ℕ) = (threeToday.filter
        (fun u => decide (todayTs - 30 * msPerDay ≤ u.createdAt))).countP
      (fun u => epochDay u.createdAt == epochDay todayTs) :=
  ⟨by decide, (daily_histogram threeToday todayTs).2.2.1
    (epochDay todayTs, 3) (by decide)⟩

/-- The fold of `max` from `0` over a nonempty list of naturals is one of
its elements (so `Math.max(...arr)` is attained). -/
theorem foldr_max_mem : ∀ (l : List ℕ), l ≠ [] → l.foldr max 0 ∈ l := by
  intro l
  induction l with
  | nil => intro h; exact absurd rfl h
  | cons a t ih =>
    intro _
    cases t with
    | nil => simp
    | cons b t2 =>
      rw [List.foldr_cons]
      rcases max_choice a ((b :: t2).foldr max 0) with h | h <;> rw [h]
      · exact List.mem_cons_self a _
      · exact List.mem_cons_of_mem a (ih (by simp))

/-- Entries strictly before `indexOf a` differ from `a` (`indexOf` — JS
`Array.prototype.indexOf` — returns the first occurrence). -/
theorem getD_ne_of_lt_indexOf :
    ∀ (l : List ℕ) (a j : ℕ), j < l.indexOf a → l.getD j 0 ≠ a := by
  intro l
  induction l with
  | nil => intro a j h; simp [List.indexOf_nil] at h
  | cons b t ih =>
    intro a j h
    by_cases hb : b = a
    · rw [List.indexOf_cons_eq t hb] at h
      exact absurd h (Nat.not_lt_zero j)
    · rw [List.indexOf_cons_ne t hb] at h
      cases j with
      | zero => simpa using hb
      | succ j2 => exact ih a j2 (Nat.lt_of_succ_lt_succ h)

/-- The hourly histogram is the per-hour count of all users. -/
theorem hourlyData_eq (tz : Int) (users : List User) :
    hourlyData tz users
      = (List.range 24).map (fun (h : ℕ) =>
          ((h : Int), users.countP
            (fun u => localHour tz u.createdAt == (h : Int)))) := by
  rw [hourlyData, foldl_bumpKey, List.map_map]
  refine List.map_congr_left (fun h hh => ?_)
  simp

/-- C10: `peakSignupHour` is the first index attaining the maximum of the
24 hourly counts — the smallest hour whose count equals the maximum, ties
broken toward the earliest hour — and, on the empty store, it is 0. -/
theorem peak_signup_hour (tz : Int) (users : List User) :
    peakSignupHour tz users < 24 ∧
    ((hourlyData tz users).map Prod.snd).getD (peakSignupHour tz users) 0
      = ((hourlyData tz users).map Prod.snd).foldr max 0 ∧
    (∀ j < peakSignupHour tz users,
      ((hourlyData tz users).map Prod.snd).getD j 0
        ≠ ((hourlyData tz users).map Prod.snd).foldr max 0) ∧
    peakSignupHour tz [] = 0 := by
  have hlen : ((hourlyData tz users).map Prod.snd).length = 24 := by
    rw [hourlyData_eq, List.map_map, List.length_map, List.length_range]
  have hne : (hourlyData tz users).map Prod.snd ≠ [] := by
    intro h
    rw [h] at hlen
    exact absurd hlen (by decide)
  have hmem := foldr_max_mem _ hne
  have hidx := List.indexOf_lt_length.mpr hmem
  refine ⟨?_, ?_, ?_, ?_⟩
  · rw [peakSignupHour]
    omega
  · rw [peakSignupHour]
    rw [List.getD_eq_getElem _ _ hidx]
    exact List.getElem_indexOf hidx
  · intro j hj
    rw [peakSignupHour] at hj
    exact getD_ne_of_lt_indexOf _ _ j hj
  · rfl

/-- Witness for C10 at a concrete input: the three-user store in UTC; its
peak is below 24, attains the maximum, and hour 0 (before the peak) does
not attain it. -/
theorem peak_signup_hour_witness :
    peakSignupHour 0 threeToday < 24 ∧
    ((hourlyData 0 threeToday).map Prod.snd).getD (peakSignupHour 0 threeToday) 0
      = ((hourlyData 0 threeToday).map Prod.snd).foldr max 0 ∧
    (0 < peakSignupHour 0 threeToday ∧
      ((hourlyData 0 threeToday).map Prod.snd).getD 0 0
        ≠ ((hourlyData 0 threeToday).map Prod.snd).foldr max 0) :=
  ⟨(peak_signup_hour 0 threeToday).1, (peak_signup_hour 0 threeToday).2.1,
    by decide, (peak_signup_hour 0 threeToday).2.2.1 0 (by decide)⟩

/-- C7: with no mail transport configured, `sendWelcomeEmail` short-circuits
to `{success: true}` and never invokes the transport — demo mode is not an
error. -/
theorem demo_mode_welcome (svc : EmailSvc) (email : String)
    (transport : SendReq → SendOutcome) (h : svc.isConfigured = false) :
    sendWelcomeEmail svc email transport = ({ success := true }, []) := by
  simp [sendWelcomeEmail, h]

/-- Witness for C7 at concrete inputs: the default demo-mode service, with
an accepting and with a rejecting transport. -/
theorem demo_mode_welcome_witness :
    demoSvc.isConfigured = false ∧
    sendWelcomeEmail demoSvc "a@x.com" okTransport = ({ success := true }, []) ∧
    sendWelcomeEmail demoSvc "a@x.com" errTransport = ({ success := true }, []) :=
  ⟨rfl, demo_mode_welcome demoSvc "a@x.com" okTransport rfl,
    demo_mode_welcome demoSvc "a@x.com" errTransport rfl⟩

/-- The batch loop tags every recipient of a batch with the outcome of that
batch, over all batches in order. -/
theorem sendBatchesAux_results (transport : SendReq → SendOutcome)
    (mkReq : List String → SendReq) :
    ∀ (fuel : ℕ) (rem : List String), rem.length ≤ fuel →
      (sendBatchesAux transport mkReq fuel rem).1
        = ((batches fuel rem).map (fun b =>
            b.map (fun e => (e, sendOk (transport (mkReq b)))))).flatten := by
  intro fuel
  induction fuel with
  | zero =>
    intro rem h
    have hrem : rem = [] := List.eq_nil_of_length_eq_zero (Nat.le_zero.mp h)
    subst hrem
    rfl
  | succ f ih =>
    intro rem h
    cases rem with
    | nil => rfl
    | cons a t =>
      have hd : ((a :: t).drop 50).length ≤ f := by
        rw [List.length_drop]
        simp only [List.length_cons] at h ⊢
        omega
      simp only [sendBatchesAux, batches, List.map_cons, List.flatten_cons,
        ih _ hd]

/-- The batch loop records exactly one result per recipient, in order. -/
theorem sendBatchesAux_fst (transport : SendReq → SendOutcome)
    (mkReq : List String → SendReq) :
    ∀ (fuel : ℕ) (rem : List String), rem.length ≤ fuel →
      (sendBatchesAux transport mkReq fuel rem).1.map Prod.fst = rem := by
  intro fuel
  induction fuel with
  | zero =>
    intro rem h
    have hrem : rem = [] := List.eq_nil_of_length_eq_zero (Nat.le_zero.mp h)
    subst hrem
    rfl
  | succ f ih =>
    intro rem h
    cases rem with
    | nil => rfl
    | cons a t =>
      have hd : ((a :: t).drop 50).length ≤ f := by
        rw [List.length_drop]
        simp only [List.length_cons] at h ⊢
        omega
      simp only [sendBatchesAux, List.map_append, List.map_map, ih _ hd]
      rw [show (Prod.fst ∘ fun e => (e, sendOk (transport
          (mkReq ((a :: t).take 50))))) = id from rfl]
      rw [List.map_id, List.take_append_drop]

/-- The batch loop pauses exactly once between consecutive batches. -/
theorem sendBatchesAux_delays (transport : SendReq → SendOutcome)
    (mkReq : List String → SendReq) :
    ∀ (fuel : ℕ) (rem : List String), rem.length ≤ fuel → rem ≠ [] →
      (sendBatchesAux transport mkReq fuel rem).2 + 1
        = (batches fuel rem).length := by
  intro fuel
  induction fuel with
  | zero =>
    intro rem h hne
    exact absurd (List.eq_nil_of_length_eq_zero (Nat.le_zero.mp h)) hne
  | succ f ih =>
    intro rem h hne
    cases rem with
    | nil => exact absurd rfl hne
    | cons a t =>
      by_cases h50 : 50 < (a :: t).length
      · have hd : ((a :: t).drop 50).length ≤ f := by
          rw [List.length_drop]
          simp only [List.length_cons] at h ⊢
          omega
        have hdne : (a :: t).drop 50 ≠ [] := by
          intro hcon
          have hlen2 := congrArg List.length hcon
          rw [List.length_drop, List.length_nil] at hlen2
          simp only [List.length_cons] at hlen2 h50
          omega
        have hrec := ih _ hd hdne
        have h50b : 50 < t.length + 1 := by simpa using h50
        simp only [sendBatchesAux, batches, List.length_cons]
        rw [if_pos h50b]
        omega
      · have hlen3 : (a :: t).length = t.length + 1 := List.length_cons a t
        have hdrop : (a :: t).drop 50 = [] :=
          List.drop_eq_nil_of_le (by omega)
        have h50b : ¬ 50 < t.length + 1 := by simpa using h50
        simp only [sendBatchesAux, batches, hdrop, List.length_cons,
          List.length_nil]
        rw [if_neg h50b]

/-- C8: a configured broadcast returns `{success, sent, total}` with
`success = true` and `total = emails.length`; it partitions the recipients
into batches of 50 processed sequentially — the per-recipient result list
is exactly the flattened per-batch tagging, one entry per recipient in
order, never aborting on a failed batch — with one pacing delay between
consecutive batches; 120 recipients give exactly 3 batches sized
50, 50, 20 and a per-recipient result list of length 120. -/
theorem broadcast_batching :
    (∀ (svc : EmailSvc) (emails : List String) (subject : String)
        (transport : SendReq → SendOutcome),
      svc.isConfigured = true →
      (sendProgressUpdate svc emails subject transport).success = true ∧
      (sendProgressUpdate svc emails subject transport).total
        = some emails.length ∧
      (sendProgressUpdate svc emails subject transport).results.map Prod.fst
        = emails ∧
      (sendProgressUpdate svc emails subject transport).results.length
        = emails.length ∧
      (sendProgressUpdate svc emails subject transport).results
        = ((batches emails.length emails).map (fun b =>
            b.map (fun e =>
              (e, sendOk (transport (updateReq svc subject b)))))).flatten ∧
      (emails ≠ [] →
        (sendProgressUpdate svc emails subject transport).delays + 1
          = (batches emails.length emails).length)) ∧
    (batches recipients120.length recipients120).map List.length
      = [50, 50, 20] ∧
    (sendProgressUpdate liveSvc recipients120 "Update" okTransport).results.length
      = 120 := by
  refine ⟨?_, by decide, by decide⟩
  intro svc emails subject transport h
  have hfst := sendBatchesAux_fst transport (updateReq svc subject)
    emails.length emails (Nat.le_refl _)
  have hlen : (sendBatchesAux transport (updateReq svc subject)
      emails.length emails).1.length = emails.length := by
    have := congrArg List.length hfst
    rw [List.length_map] at this
    exact this
  refine ⟨?_, ?_, ?_, ?_, ?_, ?_⟩
  · simp [sendProgressUpdate, h]
  · simp [sendProgressUpdate, h]
  · simp only [sendProgressUpdate, h, Bool.not_true, Bool.false_eq_true,
      if_false]
    exact hfst
  · simp only [sendProgressUpdate, h, Bool.not_true, Bool.false_eq_true,
      if_false]
    exact hlen
  · simp only [sendProgressUpdate, h, Bool.not_true, Bool.false_eq_true,
      if_false]
    exact sendBatchesAux_results transport (updateReq svc subject)
      emails.length emails (Nat.le_refl _)
  · intro hne
    simp only [sendProgressUpdate, h, Bool.not_true, Bool.false_eq_true,
      if_false]
    exact sendBatchesAux_delays transport (updateReq svc subject)
      emails.length emails (Nat.le_refl _) hne

/-- Witness for C8 at a concrete input: a configured service broadcasting
to two recipients through a failing transport. -/
theorem broadcast_batching_witness :
    liveSvc.isConfigured = true ∧
    (sendProgressUpdate liveSvc ["a@x.com", "b@x.com"] "s" errTransport).results.map
      Prod.fst = ["a@x.com", "b@x.com"] ∧
    (sendProgressUpdate liveSvc ["a@x.com", "b@x.com"] "s" errTransport).total
      = some (["a@x.com", "b@x.com"] : List String).length ∧
    (["a@x.com", "b@x.com"] : List String) ≠ [] ∧
    (sendProgressUpdate liveSvc ["a@x.com", "b@x.com"] "s" errTransport).delays + 1
      = (batches (["a@x.com", "b@x.com"] : List String).length
          ["a@x.com", "b@x.com"]).length :=
  ⟨rfl,
    (broadcast_batching.1 liveSvc ["a@x.com", "b@x.com"] "s" errTransport rfl).2.2.1,
    (broadcast_batching.1 liveSvc ["a@x.com", "b@x.com"] "s" errTransport rfl).2.1,
    by decide,
    (broadcast_batching.1 liveSvc ["a@x.com", "b@x.com"] "s" errTransport
      rfl).2.2.2.2.2 (by decide)⟩

/-- C9: partial delivery failure is never escalated to an overall failure:
for every recipient list and transport — including transports that fail
some or all batches — the top-level `success` flag of the configured
broadcast is `true`, and the failures are visible only through the counts:
`sent` is the number of successful per-recipient results, bounded by
`total = emails.length`. -/
theorem broadcast_failures_reported_as_counts (svc : EmailSvc)
    (emails : List String) (subject : String)
    (transport : SendReq → SendOutcome) (h : svc.isConfigured = true) :
    (sendProgressUpdate svc emails subject transport).success = true ∧
    (sendProgressUpdate svc emails subject transport).sent
      = ((sendProgressUpdate svc emails subject transport).results.filter
          (fun p => p.2)).length ∧
    (sendProgressUpdate svc emails subject transport).sent ≤ emails.length ∧
    (sendProgressUpdate svc emails subject transport).total
      = some emails.length := by
  have hfst := sendBatchesAux_fst transport (updateReq svc subject)
    emails.length emails (Nat.le_refl _)
  have hlen : (sendBatchesAux transport (updateReq svc subject)
      emails.length emails).1.length = emails.length := by
    have := congrArg List.length hfst
    rw [List.length_map] at this
    exact this
  refine ⟨by simp [sendProgressUpdate, h], by simp [sendProgressUpdate, h],
    ?_, by simp [sendProgressUpdate, h]⟩
  simp only [sendProgressUpdate, h, Bool.not_true, Bool.false_eq_true,
    if_false]
  calc ((sendBatchesAux transport (updateReq svc subject)
          emails.length emails).1.filter (fun p => p.2)).length
      ≤ (sendBatchesAux transport (updateReq svc subject)
          emails.length emails).1.length := List.length_filter_le _ _
    _ = emails.length := hlen

/-- Witness for C9 at a concrete input: a broadcast to three recipients in
which every batch fails still reports `success = true`, with the failure
visible only as `sent = 0` of `total = 3`. -/
theorem broadcast_failures_reported_as_counts_witness :
    liveSvc.isConfigured = true ∧
    (sendProgressUpdate liveSvc ["a@x.com", "b@x.com", "c@x.com"] "s"
        errTransport).success = true ∧
    (sendProgressUpdate liveSvc ["a@x.com", "b@x.com", "c@x.com"] "s"
        errTransport).sent ≤ (["a@x.com", "b@x.com", "c@x.com"] : List String).length ∧
    (sendProgressUpdate liveSvc ["a@x.com", "b@x.com", "c@x.com"] "s"
        errTransport).sent = 0 :=
  ⟨rfl,
    (broadcast_failures_reported_as_counts liveSvc
      ["a@x.com", "b@x.com", "c@x.com"] "s" errTransport rfl).1,
    (broadcast_failures_reported_as_counts liveSvc
      ["a@x.com", "b@x.com", "c@x.com"] "s" errTransport rfl).2.2.1,
    by decide⟩

end Zintle
